import Mathlib

/-!
Verification of the MarketPulse signal-to-insight pipeline.

This file shallowly embeds the core pipeline of the repository
(`backend/app/services.py`, `backend/app/evaluations.py`,
`backend/app/jobs.py`, `backend/app/collectors/classification.py`)
into Lean and proves properties of the embedded definitions.

Modelling conventions:
* Python floats are modelled as rationals (`ℚ`); every arithmetic
  operation used by the code (subtraction of 3.0/1.5/0.5 from 10.0,
  division by 4 and 5, comparisons) is exact in binary floating point
  for the magnitudes involved, so the rational model is faithful.
* Database rows are Lean structures; a SQLAlchemy session is a record
  of lists of rows, and functions that write rows return an updated
  record.  UUID primary keys are modelled as naturals allocated from a
  counter; `deleted_at IS NULL` is modelled as a `deleted : Bool` flag.
* Python dates are modelled as integers (days); `timedelta(days=n)` is
  subtraction of `n`.
* Calls to external services (OpenAI chat completions) are modelled by
  `Option`-valued oracle parameters: `some r` is a successful response
  `r`, `none` is any failure (exception or missing data).  The
  surrounding `try/except` of the source becomes a `match` on the
  oracle value.
-/

namespace MarketPulse

/-! ### String utilities (Python `in`, `str.join`, `str.title`) -/

/-- Boolean test that `pat` is a leading segment of `hay` (character lists). -/
def charsStartWith : List Char → List Char → Bool
  | _, [] => true
  | [], _ :: _ => false
  | a :: as, b :: bs => a == b && charsStartWith as bs

/-- Boolean substring test on character lists, modelling Python `pat in hay`. -/
def charListContains : List Char → List Char → Bool
  | [], pat => pat.isEmpty
  | c :: rest, pat => charsStartWith (c :: rest) pat || charListContains rest pat

/-- Python's `pat in hay` on strings (case-sensitive substring test). -/
def strContains (hay pat : String) : Bool :=
  charListContains hay.data pat.data

/-- Python's `sep.join(parts)`. -/
def pyJoin (sep : String) : List String → String
  | [] => ""
  | [x] => x
  | x :: y :: ys => x ++ sep ++ pyJoin sep (y :: ys)

/-- Helper for `pyTitle`: the boolean argument records whether the previous
character was alphabetic. -/
def pyTitleAux : Bool → List Char → List Char
  | _, [] => []
  | prevAlpha, c :: cs =>
    (if c.isAlpha then (if prevAlpha then c.toLower else c.toUpper) else c)
      :: pyTitleAux c.isAlpha cs

/-- Python's `str.title()`: first letter of every alphabetic run uppercased,
the rest lowercased. -/
def pyTitle (s : String) : String :=
  ⟨pyTitleAux false s.data⟩

/-- The apostrophe character as a one-character string. -/
def apos : String := String.singleton (Char.ofNat 39)

/-- Python's `str.lower()` (ASCII case mapping, which covers every string the
pipeline compares case-insensitively).  Defined directly over the character
list so that it reduces inside `decide`. -/
def pyLower (s : String) : String := ⟨s.data.map Char.toLower⟩

theorem charsStartWith_append (m suf : List Char) :
    charsStartWith (m ++ suf) m = true := by
  induction m with
  | nil => cases suf <;> rfl
  | cons c cs ih => simp [charsStartWith, ih]

theorem charListContains_nil_pat (hay : List Char) :
    charListContains hay [] = true := by
  cases hay <;> simp [charListContains, charsStartWith, List.isEmpty]

/-- Containment through an explicit decomposition of the underlying
character list. -/
theorem strContains_of_parts (hay pat : String) (p s : List Char)
    (h : hay.data = p ++ (pat.data ++ s)) : strContains hay pat = true := by
  unfold strContains
  rw [h]
  clear h
  induction p with
  | nil =>
    simp only [List.nil_append]
    cases hd : pat.data with
    | nil => simpa using charListContains_nil_pat s
    | cons a as =>
      simp [charListContains, charsStartWith, charsStartWith_append]
  | cons c cs ih =>
    simp only [List.cons_append, charListContains, List.append_eq]
    simp only [List.append_eq] at ih
    simp [ih]

/-- A character of any substring occurs in the string: used to refute
containment. -/
theorem not_strContains_of_not_mem (hay pat : String) (c : Char)
    (hc : c ∈ pat.data) (hn : c ∉ hay.data) : strContains hay pat = false := by
  by_contra hfalse
  have htrue : strContains hay pat = true := by
    cases h : strContains hay pat with
    | true => rfl
    | false => exact absurd h hfalse
  apply hn
  unfold strContains at htrue
  -- from a successful containment test extract that pat's characters occur in hay
  have main : ∀ hd pd : List Char, charListContains hd pd = true →
      ∀ x ∈ pd, x ∈ hd := by
    intro hd
    induction hd with
    | nil =>
      intro pd h x hx
      cases pd with
      | nil => simp at hx
      | cons a as => simp [charListContains, List.isEmpty] at h
    | cons a as ih =>
      intro pd h x hx
      simp only [charListContains, Bool.or_eq_true] at h
      rcases h with h | h
      · -- pd is a leading segment of a :: as
        have hpre : ∀ m l : List Char, charsStartWith l m = true →
            ∀ y ∈ m, y ∈ l := by
          intro m
          induction m with
          | nil => intro l _ y hy; simp at hy
          | cons b bs ihm =>
            intro l hl y hy
            cases l with
            | nil => simp [charsStartWith] at hl
            | cons c cs =>
              simp only [charsStartWith, Bool.and_eq_true, beq_iff_eq] at hl
              rcases List.mem_cons.mp hy with hy | hy
              · subst hy; rw [hl.1]; exact List.mem_cons_self _ _
              · exact List.mem_cons_of_mem _ (ihm cs hl.2 y hy)
        exact hpre pd (a :: as) h x hx
      · exact List.mem_cons_of_mem _ (ih pd h x hx)
  exact main hay.data pat.data htrue c hc

theorem str_data_append (a b : String) : (a ++ b).data = a.data ++ b.data := rfl

/-! ### Data model (`backend/app/models.py`, fields used by the pipeline) -/

/-- Canonical entity catalog row (`Entity`): only the fields the pipeline
reads. -/
structure EntityRec where
  name : String
  segment : String
  deriving DecidableEq, Repr

/-- Signal-to-entity link row (`SignalEntity`), with the joined entity
(`entity_link.entity` may be a dangling reference, hence `Option`). -/
structure EntityLink where
  entity : Option EntityRec
  deriving DecidableEq, Repr

/-- Signal row (`Signal`): `deleted = true` models `deleted_at IS NOT NULL`;
`created_at` is a day number; `entity_tags = []` models both SQL `NULL` and an
empty array (they behave identically in every reader). -/
structure Signal where
  id : Nat
  entity : String
  event_type : String
  topic : String
  source_url : String
  evidence_snippet : String
  confidence : String
  impact_areas : List String
  entity_tags : List String
  entity_links : List EntityLink
  created_at : Int
  deleted : Bool
  deriving DecidableEq, Repr

/-- Convenience constructor used by concrete test inputs. -/
def mkSignal (entity confidence : String) : Signal :=
  { id := 0, entity := entity, event_type := "announcement", topic := "open access"
    source_url := "", evidence_snippet := "", confidence := confidence
    impact_areas := ["Tech"], entity_tags := [], entity_links := []
    created_at := 0, deleted := false }

/-! ### Theme synthesis (`services.py`) -/

/-- Embeds `aggregate_confidence` (services.py lines 439-461). -/
def aggregate_confidence (signals : List Signal) : String :=
  if (signals.map (·.confidence)).all (fun c => c == "High") then "High"
  else if (signals.map (·.confidence)).any (fun c => c == "Low") then "Medium"
  else "High"

/-- Embeds `collect_impact_areas`: `sorted(list(set(...)))`.  Python sorts
strings lexicographically by code point, which is `String` order in Lean. -/
def sortedUnique (l : List String) : List String :=
  List.insertionSort (fun a b : String => a ≤ b) l.dedup

def collect_impact_areas (signals : List Signal) : List String :=
  sortedUnique (signals.flatMap (·.impact_areas))

def collect_key_players (signals : List Signal) : List String :=
  sortedUnique (signals.map (·.entity))

/-- Static fallback list of known competitor names (services.py). -/
def KNOWN_COMPETITORS : List String :=
  ["kriyadocs", "knowledgeworks", "cactus", "editage",
   "spi global", "straive", "integra", "tnq books", "tnq",
   "exeter premedia", "aptara", "mps limited", "mps",
   "newgen knowledgeworks", "newgen", "publishing technology", "pubtech",
   "aries systems", "editorial manager", "scholarone", "ejournal press"]

/-- Per-signal competitor test: the loop body shared by
`is_competitor_theme` and `get_competitor_entities_from_signals`
(services.py lines 567-585).  Primary: any entity link whose entity has
segment `"competitor"`; fallback (only when no such link and
`signal.entity` is truthy): case-insensitive substring match of the
entity field against `KNOWN_COMPETITORS`. -/
def is_competitor_signal (s : Signal) : Bool :=
  if s.entity_links.any
      (fun l => match l.entity with
        | some e => e.segment == "competitor"
        | none => false) then true
  else if s.entity == "" then false
  else KNOWN_COMPETITORS.any (fun k => strContains (pyLower s.entity) k)

/-- Embeds `is_competitor_theme` (services.py lines 539-589): the final
comparison `competitor_signal_count >= (len(signals) / 4)` uses Python's
true division, modelled over `ℚ`. -/
def is_competitor_theme (signals : List Signal) : Bool :=
  if signals.isEmpty then false
  else decide ((signals.length : ℚ) / 4 ≤ (signals.countP is_competitor_signal : ℚ))

/-- Embeds `get_competitor_entities_from_signals` (services.py lines
496-536): collects the set of competitor names; link hits contribute the
catalog name, fallback hits contribute the raw entity field. -/
def get_competitor_entities_from_signals (signals : List Signal) : List String :=
  sortedUnique (signals.flatMap (fun s =>
    let linkNames := (s.entity_links.filterMap (·.entity)).filter
      (fun e => e.segment == "competitor") |>.map (·.name)
    if ¬ linkNames.isEmpty then linkNames
    else if s.entity == "" then []
    else if KNOWN_COMPETITORS.any (fun k => strContains (pyLower s.entity) k) then [s.entity]
    else []))

/-- Claim-side predicate for C4: a signal is tied to competitor entities via
an entity link with segment `"competitor"`, or, when no such link exists,
via a case-insensitive substring match of its entity field against the
static competitor-name list. -/
abbrev competitorLinkTied (s : Signal) : Prop :=
  ∃ l ∈ s.entity_links, ∃ e, l.entity = some e ∧ e.segment = "competitor"

abbrev competitorTied (s : Signal) : Prop :=
  competitorLinkTied s ∨
    (¬ competitorLinkTied s ∧ ∃ k ∈ KNOWN_COMPETITORS, strContains (pyLower s.entity) k = true)

theorem is_competitor_signal_iff (s : Signal) :
    is_competitor_signal s = true ↔ competitorTied s := by
  have hlink_iff : (s.entity_links.any
      (fun l => match l.entity with
        | some e => e.segment == "competitor"
        | none => false)) = true ↔ competitorLinkTied s := by
    rw [List.any_eq_true]
    constructor
    · rintro ⟨l, hl, hmatch⟩
      refine ⟨l, hl, ?_⟩
      cases he : l.entity with
      | none => rw [he] at hmatch; exact absurd hmatch (by decide)
      | some e => rw [he] at hmatch; exact ⟨e, rfl, by simpa using hmatch⟩
    · rintro ⟨l, hl, e, he, hseg⟩
      exact ⟨l, hl, by rw [he]; simpa using hseg⟩
  unfold is_competitor_signal
  by_cases hlink : (s.entity_links.any
      (fun l => match l.entity with
        | some e => e.segment == "competitor"
        | none => false)) = true
  · rw [if_pos hlink]
    exact ⟨fun _ => Or.inl (hlink_iff.mp hlink), fun _ => rfl⟩
  · rw [if_neg hlink]
    have hnot : ¬ competitorLinkTied s := fun h => hlink (hlink_iff.mpr h)
    by_cases hent : (s.entity == "") = true
    · rw [if_pos hent]
      have hempty : s.entity = "" := by simpa using hent
      constructor
      · intro h; exact absurd h (by decide)
      · rintro (h | ⟨-, k, hk, hck⟩)
        · exact absurd h hnot
        · exfalso
          rw [hempty] at hck
          have hall : ∀ k ∈ KNOWN_COMPETITORS, strContains (pyLower "") k = false := by
            decide
          rw [hall k hk] at hck
          exact absurd hck (by decide)
    · rw [if_neg hent]
      rw [List.any_eq_true]
      constructor
      · rintro ⟨k, hk, hck⟩; exact Or.inr ⟨hnot, k, hk, hck⟩
      · rintro (h | ⟨-, k, hk, hck⟩)
        · exact absurd h hnot
        · exact ⟨k, hk, hck⟩

/-- C4: for a non-empty cluster the competitor flag is set iff the number of
competitor-tied signals is at least one quarter of the cluster size.  The
code compares `count >= len(signals) / 4` with Python true division; the
right-hand side here is the equivalent integer statement
`len ≤ 4 * count`. -/
theorem C4_competitor_flag_quarter (signals : List Signal) (hne : signals ≠ []) :
    is_competitor_theme signals = true ↔
      signals.length ≤ 4 * signals.countP (fun s => decide (competitorTied s)) := by
  unfold is_competitor_theme
  have h0 : signals.isEmpty = false := by
    cases signals with
    | nil => exact absurd rfl hne
    | cons a as => rfl
  rw [h0]
  simp only [Bool.false_eq_true, if_false]
  have hfun : is_competitor_signal = fun s => decide (competitorTied s) := by
    funext s
    rw [Bool.eq_iff_iff, is_competitor_signal_iff, decide_eq_true_iff]
  rw [hfun, decide_eq_true_iff, div_le_iff₀ (by norm_num : (0:ℚ) < 4)]
  rw [mul_comm]
  exact_mod_cast Iff.rfl

theorem C4_witness :
    [mkSignal "Cactus" "High"] ≠ ([] : List Signal) ∧
      is_competitor_theme [mkSignal "Cactus" "High"] = true :=
  ⟨by simp, (C4_competitor_flag_quarter [mkSignal "Cactus" "High"] (by simp)).mpr (by decide)⟩

/-- C5: aggregate confidence is `"Medium"` exactly when some signal is
`"Low"`, otherwise `"High"`; in particular all-`"High"` gives `"High"` and
the three documented examples hold. -/
theorem C5_aggregate_confidence (signals : List Signal) (hne : signals ≠ []) :
    (aggregate_confidence signals
        = if signals.any (fun s => s.confidence == "Low") then "Medium" else "High")
    ∧ ((∀ s ∈ signals, s.confidence = "High") → aggregate_confidence signals = "High")
    ∧ aggregate_confidence [mkSignal "A" "High", mkSignal "B" "High"] = "High"
    ∧ aggregate_confidence [mkSignal "A" "High", mkSignal "B" "Low"] = "Medium"
    ∧ aggregate_confidence [mkSignal "A" "High", mkSignal "B" "Medium"] = "High" := by
  have hmap_all : ((signals.map (·.confidence)).all (fun c => c == "High"))
      = signals.all (fun s => s.confidence == "High") := by
    clear hne
    induction signals with
    | nil => rfl
    | cons a as ih => simp only [List.map_cons, List.all_cons, ih]
  have hmap_any : ((signals.map (·.confidence)).any (fun c => c == "Low"))
      = signals.any (fun s => s.confidence == "Low") := by
    clear hne hmap_all
    induction signals with
    | nil => rfl
    | cons a as ih => simp only [List.map_cons, List.any_cons, ih]
  refine ⟨?_, ?_, by rfl, by rfl, by rfl⟩
  · unfold aggregate_confidence
    rw [hmap_all, hmap_any]
    by_cases hLow : signals.any (fun s => s.confidence == "Low") = true
    · rcases List.any_eq_true.mp hLow with ⟨s, hs, hsl⟩
      have hall : signals.all (fun s => s.confidence == "High") = false := by
        rw [Bool.eq_false_iff]
        intro hallT
        have hhigh := List.all_eq_true.mp hallT s hs
        rw [beq_iff_eq] at hhigh hsl
        rw [hsl] at hhigh
        exact absurd hhigh (by decide)
      rw [hall, hLow]
      rfl
    · rw [Bool.not_eq_true] at hLow
      rw [hLow]
      cases hall : signals.all (fun s => s.confidence == "High") with
      | true => rfl
      | false => rfl
  · intro h
    unfold aggregate_confidence
    rw [hmap_all]
    have hall : signals.all (fun s => s.confidence == "High") = true :=
      List.all_eq_true.mpr (fun s hs => beq_iff_eq.mpr (h s hs))
    rw [hall]
    rfl

theorem C5_witness :
    ([mkSignal "A" "High", mkSignal "B" "Low"] : List Signal) ≠ [] ∧
      aggregate_confidence [mkSignal "A" "High", mkSignal "B" "Low"] = "Medium" :=
  ⟨by simp, (C5_aggregate_confidence [mkSignal "A" "High", mkSignal "B" "Low"]
      (by simp)).2.2.2.1⟩

/-! ### Theme ranking (`rank_themes`, services.py lines 975-1001) -/

/-- Theme dictionary produced by `create_theme_from_cluster` (the shape
consumed by `rank_themes` and `save_themes`). -/
structure ThemeDict where
  title : String
  signal_ids : List Nat
  key_players : List String
  aggregate_confidence : String
  impact_areas : List String
  so_what : String
  now_what : List String
  is_competitor : Bool
  competitors : List String
  deriving DecidableEq, Repr

/-- Embeds the `confidence_score` lookup `{"High": 3, "Medium": 2, "Low": 1}`
with `.get(..., 0)` default. -/
def confidence_score (c : String) : Nat :=
  if c == "High" then 3 else if c == "Medium" then 2 else if c == "Low" then 1 else 0

/-- Embeds `sort_key`: Python's `(bool, int, int, int)` tuple with
`True > False` modelled as `1 > 0`. -/
def sortKey (t : ThemeDict) : Nat × Nat × Nat × Nat :=
  (cond t.is_competitor 1 0, t.impact_areas.length, t.signal_ids.length,
    confidence_score t.aggregate_confidence)

/-- Lexicographic order on quadruples, i.e. Python tuple comparison. -/
def lexLe (a b : Nat × Nat × Nat × Nat) : Prop :=
  a.1 < b.1 ∨ (a.1 = b.1 ∧ (a.2.1 < b.2.1 ∨ (a.2.1 = b.2.1 ∧
    (a.2.2.1 < b.2.2.1 ∨ (a.2.2.1 = b.2.2.1 ∧ a.2.2.2 ≤ b.2.2.2)))))

instance : DecidableRel lexLe := fun a b => by unfold lexLe; infer_instance

/-- The comparison used to model `sorted(themes, key=sort_key, reverse=True)`:
`a` may precede `b` exactly when `sort_key(a) ≥ sort_key(b)`. -/
def themeGE (a b : ThemeDict) : Prop := lexLe (sortKey b) (sortKey a)

instance : DecidableRel themeGE := fun a b => by unfold themeGE; infer_instance

instance : IsTotal ThemeDict themeGE := ⟨fun a b => by unfold themeGE lexLe; omega⟩

instance : IsTrans ThemeDict themeGE := ⟨fun a b c => by unfold themeGE lexLe; omega⟩

/-- Embeds `rank_themes`: Python's `sorted` is a stable sort, and a stable
sort by a total preorder is extensionally unique, so the stable insertion
sort with the descending comparison is the same function. -/
def rank_themes (themes : List ThemeDict) : List ThemeDict :=
  List.insertionSort themeGE themes

theorem lexLe_refl (x : Nat × Nat × Nat × Nat) : lexLe x x := by unfold lexLe; omega

theorem sortKey_ne_of_not_ge {a b : ThemeDict} (h : ¬ themeGE a b) :
    sortKey a ≠ sortKey b := by
  intro he
  apply h
  unfold themeGE
  rw [he]
  exact lexLe_refl _

theorem filter_key_orderedInsert (k : Nat × Nat × Nat × Nat) (a : ThemeDict)
    (l : List ThemeDict) :
    (List.orderedInsert themeGE a l).filter (fun t => decide (sortKey t = k))
      = (a :: l).filter (fun t => decide (sortKey t = k)) := by
  induction l with
  | nil => rfl
  | cons b bs ih =>
    by_cases hab : themeGE a b
    · rw [List.orderedInsert, if_pos hab]
    · rw [List.orderedInsert, if_neg hab]
      have hne : sortKey a ≠ sortKey b := sortKey_ne_of_not_ge hab
      by_cases hbk : sortKey b = k <;> by_cases hak : sortKey a = k
      · exact absurd (hak.trans hbk.symm) hne
      · simp [List.filter_cons, hbk, hak, ih]
      · simp [List.filter_cons, hbk, hak, ih]
      · simp [List.filter_cons, hbk, hak, ih]

theorem filter_key_insertionSort (k : Nat × Nat × Nat × Nat)
    (l : List ThemeDict) :
    (List.insertionSort themeGE l).filter (fun t => decide (sortKey t = k))
      = l.filter (fun t => decide (sortKey t = k)) := by
  induction l with
  | nil => rfl
  | cons x xs ih =>
    show (List.orderedInsert themeGE x (List.insertionSort themeGE xs)).filter _ = _
    rw [filter_key_orderedInsert]
    simp only [List.filter_cons]
    rw [ih]

/-- C6: `rank_themes` sorts by the descending `(competitor, impact-count,
signal-count, confidence-rank)` key, is a permutation of its input, is
stable (the subsequence of themes with any fixed key value is preserved),
and the competitor flag strictly dominates the other key components. -/
theorem C6_rank_themes_sorted_stable (themes : List ThemeDict) :
    List.Sorted themeGE (rank_themes themes)
    ∧ List.Perm (rank_themes themes) themes
    ∧ (∀ k, (rank_themes themes).filter (fun t => decide (sortKey t = k))
          = themes.filter (fun t => decide (sortKey t = k)))
    ∧ (∀ a b : ThemeDict, a.is_competitor = true → b.is_competitor = false →
          themeGE a b ∧ ¬ themeGE b a) := by
  refine ⟨List.sorted_insertionSort _ _, List.perm_insertionSort _ _,
    fun k => filter_key_insertionSort k themes, ?_⟩
  intro a b ha hb
  unfold themeGE lexLe sortKey
  rw [ha, hb]
  simp only [cond_true, cond_false]
  omega

theorem C6_witness :
    List.Sorted themeGE (rank_themes []) ∧ List.Perm (rank_themes []) [] :=
  ⟨(C6_rank_themes_sorted_stable []).1, (C6_rank_themes_sorted_stable []).2.1⟩

/-! ### Evaluation framework (`backend/app/evaluations.py`) -/

/-- Issue dictionary produced by the evaluators (type, severity, description,
affected signal ids, affected entities). -/
structure EvalIssue where
  itype : String
  severity : String
  description : String
  signal_ids : List String
  entities : List String
  deriving DecidableEq, Repr

/-- One entry of `content_data['key_insights']`. -/
structure InsightData where
  insight : String
  signal_ids : List Nat
  entities : List String
  deriving DecidableEq, Repr

/-- One entry of `content_data['themes']`. -/
structure ThemeContentData where
  signal_ids : List Nat
  key_players : List String
  deriving DecidableEq, Repr

/-- The `content_data` dictionary: absent keys are modelled by the `.get`
defaults the code uses (`[]` and `0`).  Signal ids are modelled as naturals
(the code additionally parses UUID strings, which is not relevant to any
claim about already-extracted id lists). -/
structure ContentData where
  signal_ids : List Nat
  key_players : List String
  key_insights : List InsightData
  themes : List ThemeContentData
  total_signals : Nat
  deriving DecidableEq, Repr

/-- Embeds `_extract_signal_ids` (evaluations.py lines 105-124). -/
def extract_signal_ids (content_type : String) (c : ContentData) : List Nat :=
  if content_type == "theme" then c.signal_ids
  else if content_type == "signal_summary" then c.key_insights.flatMap (·.signal_ids)
  else if content_type == "weekly_brief" then c.themes.flatMap (·.signal_ids)
  else []

/-- Embeds `_extract_entities` (evaluations.py lines 127-142); the Python
`set` is modelled by `dedup` (only membership and emptiness are consumed
downstream). -/
def extract_entities (content_type : String) (c : ContentData) : List String :=
  (if content_type == "theme" then c.key_players
   else if content_type == "signal_summary" then c.key_insights.flatMap (·.entities)
   else if content_type == "weekly_brief" then c.themes.flatMap (·.key_players)
   else []).dedup

/-- Embeds `_check_signal_ids_exist`: ids with no non-deleted row. -/
def check_signal_ids_exist (db : List Signal) (signal_ids : List Nat) : List Nat :=
  signal_ids.filter (fun sid => !(db.any (fun s => !s.deleted && s.id == sid)))

/-- Embeds `_check_entities_in_signals`: entities absent from the entity
fields and entity tags of the cited non-deleted signals. -/
def check_entities_in_signals (db : List Signal) (signal_ids : List Nat)
    (entities : List String) : List String :=
  entities.filter (fun e =>
    !(((db.filter (fun s => signal_ids.contains s.id && !s.deleted)).map (·.entity)
       ++ (db.filter (fun s => signal_ids.contains s.id && !s.deleted)).flatMap
            (·.entity_tags)).contains e))

/-- Per-issue score decrement (evaluations.py lines 89-97). -/
def severityDelta (sev : String) : ℚ :=
  if sev == "critical" then 3
  else if sev == "major" then 3/2
  else if sev == "minor" then 1/2
  else 0

/-- The pre-clamp score: starts at 10.0 and is decremented per issue. -/
def rawScore (issues : List EvalIssue) : ℚ :=
  issues.foldl (fun s i => s - severityDelta i.severity) 10

/-- Embeds `score = max(0.0, min(10.0, score))`. -/
def clampScore (x : ℚ) : ℚ := max 0 (min 10 x)

def scoreOfIssues (issues : List EvalIssue) : ℚ := clampScore (rawScore issues)

def countSeverity (sev : String) (issues : List EvalIssue) : Nat :=
  issues.countP (fun i => i.severity == sev)

/-- Embeds `check_hallucinations` (evaluations.py lines 24-102). -/
def check_hallucinations (db : List Signal) (content_type : String)
    (c : ContentData) : ℚ × List EvalIssue :=
  let signal_ids := extract_signal_ids content_type c
  let missing := check_signal_ids_exist db signal_ids
  let issues1 : List EvalIssue :=
    if signal_ids ≠ [] ∧ missing ≠ [] then
      [⟨"hallucination", "critical",
        "Referenced " ++ toString missing.length ++ " non-existent signal IDs",
        missing.map toString, []⟩]
    else []
  let entities := extract_entities content_type c
  let fabricated := check_entities_in_signals db signal_ids entities
  let issues2 : List EvalIssue :=
    if entities ≠ [] ∧ signal_ids ≠ [] ∧ fabricated ≠ [] then
      [⟨"hallucination", "critical",
        "Mentioned " ++ toString fabricated.length ++ " entities not found in source signals",
        [], fabricated⟩]
    else []
  let issues3 : List EvalIssue :=
    if content_type = "signal_summary" ∧ c.total_signals ≠ signal_ids.length then
      [⟨"hallucination", "major",
        "Claimed " ++ toString c.total_signals ++ " signals but actually used "
          ++ toString signal_ids.length,
        [], []⟩]
    else []
  let issues := issues1 ++ issues2 ++ issues3
  (scoreOfIssues issues, issues)

theorem severityDelta_nonneg (sev : String) : 0 ≤ severityDelta sev := by
  unfold severityDelta
  split_ifs <;> norm_num

theorem rawScore_le_start (l : List EvalIssue) :
    ∀ init : ℚ, l.foldl (fun s i => s - severityDelta i.severity) init ≤ init := by
  induction l with
  | nil => intro init; exact le_refl _
  | cons a l ih =>
    intro init
    rw [List.foldl_cons]
    calc l.foldl (fun s i => s - severityDelta i.severity) (init - severityDelta a.severity)
        ≤ init - severityDelta a.severity := ih _
      _ ≤ init := by have := severityDelta_nonneg a.severity; linarith

theorem foldl_sub_delta (l : List EvalIssue) : ∀ init : ℚ,
    l.foldl (fun s i => s - severityDelta i.severity) init
      = init - (3 * (countSeverity "critical" l : ℚ)
          + 3/2 * (countSeverity "major" l : ℚ)
          + 1/2 * (countSeverity "minor" l : ℚ)) := by
  induction l with
  | nil => intro init; simp [countSeverity]
  | cons a l ih =>
    intro init
    rw [List.foldl_cons, ih]
    unfold countSeverity at *
    simp only [List.countP_cons]
    by_cases h1 : a.severity = "critical"
    · have e1 : (a.severity == "critical") = true := beq_iff_eq.mpr h1
      have e2 : (a.severity == "major") = false := by rw [h1]; decide
      have e3 : (a.severity == "minor") = false := by rw [h1]; decide
      have e4 : severityDelta a.severity = 3 := by rw [h1]; rfl
      simp only [e1, e2, e3, e4, if_true, if_false]
      push_cast
      ring
    · by_cases h2 : a.severity = "major"
      · have e1 : (a.severity == "critical") = false := by rw [h2]; decide
        have e2 : (a.severity == "major") = true := beq_iff_eq.mpr h2
        have e3 : (a.severity == "minor") = false := by rw [h2]; decide
        have e4 : severityDelta a.severity = 3/2 := by rw [h2]; rfl
        simp only [e1, e2, e3, e4, if_true, if_false]
        push_cast
        ring
      · by_cases h3 : a.severity = "minor"
        · have e1 : (a.severity == "critical") = false := by rw [h3]; decide
          have e2 : (a.severity == "major") = false := by rw [h3]; decide
          have e3 : (a.severity == "minor") = true := beq_iff_eq.mpr h3
          have e4 : severityDelta a.severity = 1/2 := by rw [h3]; rfl
          simp only [e1, e2, e3, e4, if_true, if_false]
          push_cast
          ring
        · have e1 : (a.severity == "critical") = false :=
            beq_eq_false_iff_ne.mpr h1
          have e2 : (a.severity == "major") = false :=
            beq_eq_false_iff_ne.mpr h2
          have e3 : (a.severity == "minor") = false :=
            beq_eq_false_iff_ne.mpr h3
          have e4 : severityDelta a.severity = 0 := by
            unfold severityDelta
            rw [e1, e2, e3]
            rfl
          simp only [e1, e2, e3, e4, if_true, if_false]
          push_cast
          ring

theorem rawScore_formula (l : List EvalIssue) :
    rawScore l = 10 - (3 * (countSeverity "critical" l : ℚ)
      + 3/2 * (countSeverity "major" l : ℚ)
      + 1/2 * (countSeverity "minor" l : ℚ)) :=
  foldl_sub_delta l 10

theorem scoreOfIssues_nil : scoreOfIssues [] = 10 := by
  unfold scoreOfIssues clampScore rawScore
  rw [List.foldl_nil, min_self, max_eq_right]
  norm_num

theorem clampScore_eq_self {x : ℚ} (h0 : 0 ≤ x) (h10 : x ≤ 10) :
    clampScore x = x := by
  unfold clampScore
  rw [min_eq_right h10, max_eq_right h0]

theorem check_hallucinations_no_minor (db : List Signal) (t : String)
    (c : ContentData) :
    countSeverity "minor" (check_hallucinations db t c).2 = 0 := by
  have b1 : (("critical" : String) == "minor") = false := by decide
  have b2 : (("major" : String) == "minor") = false := by decide
  unfold check_hallucinations countSeverity
  dsimp only
  split_ifs <;> simp [List.countP_append, List.countP_cons, b1, b2]

/-- C2: the rule-based hallucination score is `10.0` minus `3.0` per
critical issue and `1.5` per major issue, clamped to `[0, 10]` (the empty
issue list scores `10.0`); appending one critical issue decreases the score
by exactly `3.0`, strictly, whenever the clamp at `0` does not apply
(i.e. the decremented pre-clamp score is still nonnegative). -/
theorem C2_hallucination_score_rule :
    (∀ (db : List Signal) (t : String) (c : ContentData),
      (check_hallucinations db t c).1
        = clampScore (10 - 3 * (countSeverity "critical" (check_hallucinations db t c).2 : ℚ)
            - 3/2 * (countSeverity "major" (check_hallucinations db t c).2 : ℚ)))
    ∧ scoreOfIssues [] = 10
    ∧ (∀ (issues : List EvalIssue) (i : EvalIssue), i.severity = "critical" →
        3 ≤ rawScore issues →
        scoreOfIssues (issues ++ [i]) = scoreOfIssues issues - 3
          ∧ scoreOfIssues (issues ++ [i]) < scoreOfIssues issues) := by
  refine ⟨?_, scoreOfIssues_nil, ?_⟩
  · intro db t c
    have hpair : (check_hallucinations db t c).1
        = scoreOfIssues (check_hallucinations db t c).2 := rfl
    rw [hpair]
    unfold scoreOfIssues
    rw [rawScore_formula, check_hallucinations_no_minor]
    have : (10 : ℚ) - (3 * (countSeverity "critical" (check_hallucinations db t c).2 : ℚ)
          + 3/2 * (countSeverity "major" (check_hallucinations db t c).2 : ℚ)
          + 1/2 * ((0 : ℕ) : ℚ))
        = 10 - 3 * (countSeverity "critical" (check_hallucinations db t c).2 : ℚ)
          - 3/2 * (countSeverity "major" (check_hallucinations db t c).2 : ℚ) := by
      push_cast
      ring
    rw [this]
  · intro issues i hsev hraw
    have happ : rawScore (issues ++ [i]) = rawScore issues - 3 := by
      unfold rawScore
      rw [List.foldl_append]
      show rawScore issues - severityDelta i.severity = rawScore issues - 3
      rw [hsev]
      rfl
    have h10 : rawScore issues ≤ 10 := rawScore_le_start issues 10
    have hc1 : scoreOfIssues issues = rawScore issues :=
      clampScore_eq_self (by linarith) h10
    have hc2 : scoreOfIssues (issues ++ [i]) = rawScore issues - 3 := by
      unfold scoreOfIssues
      rw [happ]
      exact clampScore_eq_self (by linarith) (by linarith)
    constructor
    · rw [hc1, hc2]
    · rw [hc1, hc2]
      linarith

theorem C2_witness :
    (⟨"hallucination", "critical", "", [], []⟩ : EvalIssue).severity = "critical"
    ∧ (3 : ℚ) ≤ rawScore []
    ∧ scoreOfIssues ([] ++ [⟨"hallucination", "critical", "", [], []⟩])
        = scoreOfIssues [] - 3 :=
  ⟨rfl, by norm_num [rawScore],
    (C2_hallucination_score_rule.2.2 [] ⟨"hallucination", "critical", "", [], []⟩
      rfl (by norm_num [rawScore])).1⟩

/-- C10: content with an empty extracted signal-id list and a non-summary
content type scores `10.0` with no issues: both the id-existence check and
the entity-fabrication check are skipped. -/
theorem C10_empty_ids_pass (db : List Signal) (t : String) (c : ContentData)
    (hids : extract_signal_ids t c = []) (ht : t ≠ "signal_summary") :
    check_hallucinations db t c = (10, []) := by
  unfold check_hallucinations
  rw [hids]
  dsimp only
  rw [if_neg (fun h => h.1 rfl), if_neg (fun h => h.2.1 rfl),
    if_neg (fun h => ht h.1)]
  rw [List.nil_append, List.nil_append]
  rw [scoreOfIssues_nil]

theorem C10_witness :
    extract_signal_ids "theme" ⟨[], ["Ghost Corp"], [], [], 0⟩ = []
    ∧ check_hallucinations [] "theme" ⟨[], ["Ghost Corp"], [], [], 0⟩ = (10, []) :=
  ⟨rfl, C10_empty_ids_pass [] "theme" ⟨[], ["Ghost Corp"], [], [], 0⟩ rfl (by decide)⟩

/-- Scores returned by the external LLM judge. -/
structure JudgeScores where
  grounding_score : ℚ
  relevance_score : ℚ
  actionability_score : ℚ
  coherence_score : ℚ
  deriving DecidableEq, Repr

/-- A successfully parsed judge response (schema-validated JSON). -/
structure JudgeResult where
  scores : JudgeScores
  issues : List EvalIssue
  deriving DecidableEq, Repr

/-- Embeds `evaluate_with_llm` (evaluations.py lines 189-286): the whole
OpenAI call is the oracle `judge`; `none` models any exception in the
`try` block, which the `except` clause maps to the fixed passing scores
`8.0` with no issues.  That the function is total in `judge` is the model
of "never propagates the exception". -/
def evaluate_with_llm (db : List Signal) (content_type : String) (c : ContentData)
    (judge : Option JudgeResult) : JudgeScores × List EvalIssue :=
  match db, content_type, c, judge with
  | _, _, _, some r => (r.scores, r.issues)
  | _, _, _, none => (⟨8, 8, 8, 8⟩, [])

/-- Persisted `EvaluationRun` row (fields written by `evaluate_content`). -/
structure EvaluationRun where
  content_type : String
  content_id : Nat
  hallucination_score : ℚ
  grounding_score : ℚ
  relevance_score : ℚ
  actionability_score : ℚ
  coherence_score : ℚ
  overall_score : ℚ
  passed : Bool
  threshold : ℚ
  deriving DecidableEq, Repr

/-- Embeds `evaluate_content` (evaluations.py lines 368-451): combines the
rule-based pass and the judge pass, averages the five scores, and passes
iff the average reaches the 9.0 threshold; returns the run row and the
issue rows it persists. -/
def evaluate_content (db : List Signal) (content_type : String) (content_id : Nat)
    (c : ContentData) (judge : Option JudgeResult) : EvaluationRun × List EvalIssue :=
  let hall := check_hallucinations db content_type c
  let llm := evaluate_with_llm db content_type c judge
  let overall := (hall.1 + llm.1.grounding_score + llm.1.relevance_score
    + llm.1.actionability_score + llm.1.coherence_score) / 5
  (⟨content_type, content_id, hall.1, llm.1.grounding_score, llm.1.relevance_score,
    llm.1.actionability_score, llm.1.coherence_score, overall,
    decide (9 ≤ overall), 9⟩,
   hall.2 ++ llm.2)

/-- C3: when the judge call fails, `evaluate_with_llm` returns the fixed
passing score set (8.0 for all four dimensions) with no issues and never
propagates the failure; for every judge outcome the run's overall score is
the arithmetic mean of the five scores, and it passes iff that mean is at
least 9.0; in the failure case the overall score is
`(hallucination + 32) / 5`. -/
theorem C3_judge_failure_defaults (db : List Signal) (t : String) (cid : Nat)
    (c : ContentData) :
    evaluate_with_llm db t c none = (⟨8, 8, 8, 8⟩, ([] : List EvalIssue))
    ∧ (∀ judge, (evaluate_content db t cid c judge).1.overall_score
          = ((evaluate_content db t cid c judge).1.hallucination_score
             + (evaluate_content db t cid c judge).1.grounding_score
             + (evaluate_content db t cid c judge).1.relevance_score
             + (evaluate_content db t cid c judge).1.actionability_score
             + (evaluate_content db t cid c judge).1.coherence_score) / 5
        ∧ ((evaluate_content db t cid c judge).1.passed = true ↔
            9 ≤ (evaluate_content db t cid c judge).1.overall_score))
    ∧ (evaluate_content db t cid c none).1.grounding_score = 8
    ∧ (evaluate_content db t cid c none).1.relevance_score = 8
    ∧ (evaluate_content db t cid c none).1.actionability_score = 8
    ∧ (evaluate_content db t cid c none).1.coherence_score = 8
    ∧ (evaluate_content db t cid c none).1.overall_score
        = ((check_hallucinations db t c).1 + 8 + 8 + 8 + 8) / 5 :=
  ⟨rfl, fun _ => ⟨rfl, ⟨of_decide_eq_true, decide_eq_true⟩⟩, rfl, rfl, rfl, rfl, rfl⟩

/-! ### Classification (`backend/app/collectors/classification.py`) -/

/-- Keyword table for event-type detection, in source (dict insertion)
order; first matching group wins. -/
def EVENT_TYPE_KEYWORDS : List (String × List String) :=
  [("announcement", ["announce", "announces", "announced", "launch", "introduce", "unveil", "reveal", "release"]),
   ("policy", ["policy", "policies", "mandate", "mandates", "requirement", "requirements", "regulation", "guideline", "guidelines"]),
   ("partnership", ["partner", "partnership", "collaboration", "collaborate", "alliance", "agreement", "joint", "together with"]),
   ("hire", ["appoint", "appointed", "hire", "hired", "join", "joins", "joined", "promote", "promoted", "executive", "ceo", "cto", "cio"]),
   ("m&a", ["acquire", "acquired", "acquisition", "merger", "merges", "merged", "buy", "buys", "bought", "purchase", "purchased"]),
   ("launch", ["release", "released", "debut", "debuting", "available", "new product", "new service", "new platform"]),
   ("retraction", ["retract", "retraction", "withdraw", "withdrawn", "correction", "erratum"]),
   ("service_model", ["onshore", "offshore", "nearshore", "delivery model", "staffing", "team structure", "service offering", "editorial team"])]

/-- Keyword table for topic detection, in source order. -/
def TOPIC_KEYWORDS : List (String × List String) :=
  [("Open Access", ["open access", "oa", "plan s", "green oa", "gold oa", "diamond oa", "apc", "article processing"]),
   ("Integrity", ["retraction", "misconduct", "plagiarism", "ethics", "peer review", "research integrity", "fabrication", "falsification"]),
   ("AI/ML", ["artificial intelligence", "machine learning", "ai", "ml", "neural network", "deep learning", "chatgpt", "generative ai"]),
   ("Workflow", ["workflow", "editorial", "submission", "peer review system", "manuscript", "publishing platform"]),
   ("Data", ["data sharing", "data policy", "fair data", "research data", "data repository"]),
   ("Preprints", ["preprint", "preprints", "biorxiv", "arxiv", "medrxiv", "prepublication"]),
   ("Accessibility", ["accessibility", "wcag", "ada", "inclusive design", "accessible publishing", "screen reader", "alt text", "inclusive", "disability"]),
   ("Production Platforms", ["publisher central", "editorial system", "publishing platform", "cms", "content management", "production platform", "manuscript system"]),
   ("Delivery Models", ["onshore", "offshore", "nearshore", "outsourcing", "delivery model", "service model", "team structure", "staffing model"])]

/-- Keyword table for impact-area detection (all matching groups apply). -/
def IMPACT_AREA_KEYWORDS : List (String × List String) :=
  [("Ops", ["operation", "operational", "workflow", "process", "editorial", "production", "publishing"]),
   ("Tech", ["technology", "technical", "platform", "system", "infrastructure", "software", "digital", "api"]),
   ("Integrity", ["integrity", "ethics", "ethical", "retraction", "misconduct", "compliance", "standards"]),
   ("Procurement", ["contract", "procurement", "purchasing", "vendor", "cost", "pricing", "subscription", "licensing"])]

/-- Result of a successful classification. -/
structure Classification where
  event_type : String
  topic : String
  impact_areas : List String
  deriving DecidableEq, Repr

/-- First table entry one of whose keywords occurs in the text (the
`for ...: if any(...): break` scan over a dict). -/
def keyword_match (table : List (String × List String)) (text_lower : String) :
    Option String :=
  (table.find? (fun p => p.2.any (fun kw => strContains text_lower kw))).map (·.1)

/-- Embeds `classify_text` (classification.py lines 88-145).  The relevance
filter `is_relevant_to_stm` is regex-based and is abstracted as a
boolean-valued parameter; every property proved below holds for every
instantiation of it. -/
def classify_text (is_relevant_to_stm : String → Bool) (text : String) :
    Option Classification :=
  let text_lower := pyLower text
  if is_relevant_to_stm text_lower then
    let event_type := keyword_match EVENT_TYPE_KEYWORDS text_lower
    let topic := keyword_match TOPIC_KEYWORDS text_lower
    if event_type = none ∧ topic = none then none
    else
      match topic with
      | none => none
      | some top =>
        let impact_areas := (IMPACT_AREA_KEYWORDS.filter
          (fun p => p.2.any (fun kw => strContains text_lower kw))).map (·.1)
        some ⟨event_type.getD "other", top,
          if impact_areas = [] then ["Ops"] else impact_areas⟩
  else none

/-- C7: every accepted classification carries a topic drawn from the topic
table and a non-empty impact-area list that defaults to `["Ops"]` when no
impact keyword matches; and when no topic keyword matches at all the text
is rejected, whatever the event-type scan found and whatever the relevance
filter does. -/
theorem C7_classify_topic_required (is_relevant_to_stm : String → Bool)
    (text : String) :
    (∀ cl, classify_text is_relevant_to_stm text = some cl →
        cl.topic ∈ TOPIC_KEYWORDS.map (·.1)
        ∧ cl.impact_areas ≠ []
        ∧ ((∀ p ∈ IMPACT_AREA_KEYWORDS, ∀ kw ∈ p.2,
              strContains (pyLower text) kw = false) → cl.impact_areas = ["Ops"]))
    ∧ ((∀ p ∈ TOPIC_KEYWORDS, ∀ kw ∈ p.2, strContains (pyLower text) kw = false) →
        classify_text is_relevant_to_stm text = none) := by
  constructor
  · intro cl hcl
    unfold classify_text at hcl
    dsimp only at hcl
    by_cases hrel : is_relevant_to_stm (pyLower text) = true
    · rw [if_pos hrel] at hcl
      by_cases hb : keyword_match EVENT_TYPE_KEYWORDS (pyLower text) = none
          ∧ keyword_match TOPIC_KEYWORDS (pyLower text) = none
      · rw [if_pos hb] at hcl; exact absurd hcl (by simp)
      · rw [if_neg hb] at hcl
        cases htop : keyword_match TOPIC_KEYWORDS (pyLower text) with
        | none => rw [htop] at hcl; exact absurd hcl (by simp)
        | some topv =>
          rw [htop] at hcl
          have hcl' := Option.some.inj hcl
          subst hcl'
          refine ⟨?_, ?_, ?_⟩
          · unfold keyword_match at htop
            rcases Option.map_eq_some'.mp htop with ⟨p, hfind, hp1⟩
            exact List.mem_map.mpr ⟨p, List.mem_of_find?_eq_some hfind, hp1⟩
          · by_cases him : (IMPACT_AREA_KEYWORDS.filter
                (fun p => p.2.any (fun kw => strContains (pyLower text) kw))).map (·.1) = []
            · simp [him]
            · simp [him]
          · intro hnone
            have him : IMPACT_AREA_KEYWORDS.filter
                (fun p => p.2.any (fun kw => strContains (pyLower text) kw)) = [] := by
              rw [List.filter_eq_nil_iff]
              intro p hp
              rw [Bool.not_eq_true, List.any_eq_false]
              intro kw hkw
              rw [hnone p hp kw hkw]
              exact Bool.false_ne_true
            simp [him]
    · rw [if_neg hrel] at hcl
      exact absurd hcl (by simp)
  · intro h
    unfold classify_text
    dsimp only
    by_cases hrel : is_relevant_to_stm (pyLower text) = true
    · rw [if_pos hrel]
      have htop : keyword_match TOPIC_KEYWORDS (pyLower text) = none := by
        unfold keyword_match
        rw [Option.map_eq_none']
        rw [List.find?_eq_none]
        intro p hp
        rw [Bool.not_eq_true, List.any_eq_false]
        intro kw hkw
        rw [h p hp kw hkw]
        exact Bool.false_ne_true
      by_cases hb : keyword_match EVENT_TYPE_KEYWORDS (pyLower text) = none
          ∧ keyword_match TOPIC_KEYWORDS (pyLower text) = none
      · rw [if_pos hb]
      · rw [if_neg hb, htop]
    · rw [if_neg hrel]

theorem C7_witness : classify_text (fun _ => true) "zzz" = none :=
  (C7_classify_topic_required (fun _ => true) "zzz").2 (by decide)

/-! ### Narrative generation (`generate_so_what` / `generate_now_what`,
services.py lines 642-929) -/

/-- Embeds the guard `not settings.openai_api_key or
settings.openai_api_key == "your-openai-api-key-here"` (negated):
`none`/empty model falsy values. -/
def openai_configured (openai_api_key : Option String) : Bool :=
  match openai_api_key with
  | none => false
  | some k => !(k == "") && !(k == "your-openai-api-key-here")

/-- Embeds `_generate_so_what_template` (services.py lines 766-781).
Python's `list(set(...))` is modelled by `dedup` (only the cardinality is
used here). -/
def generate_so_what_template (topic : String) (signals : List Signal)
    (impact_areas : List String) : String :=
  if (signals.map (·.entity)).dedup.length > 1 then
    "Multiple players (" ++ toString (signals.map (·.entity)).dedup.length
      ++ " entities) are moving on " ++ topic
      ++ ", indicating a broader market shift. This impacts "
      ++ (if impact_areas.isEmpty then "multiple areas" else pyJoin ", " impact_areas)
      ++ " for STM suppliers."
  else
    (match signals with | [] => "Industry" | s :: _ => s.entity)
      ++ " is making moves on " ++ topic ++ ". This development affects "
      ++ (if impact_areas.isEmpty then "multiple areas" else pyJoin ", " impact_areas)
      ++ " and may signal competitive positioning."

/-- Embeds `_generate_now_what_template` (services.py lines 903-929).
Python's `entities[0]` raises on an empty list; `headI` stands in for it and
the branch is only exercised with non-empty signal lists.  The apostrophe of
`"'s progress"` is spliced in as `apos`. -/
def generate_now_what_template (topic : String) (signals : List Signal)
    (impact_areas : List String) : List String :=
  [if (signals.map (·.entity)).dedup.length > 1 then
      "Monitor developments from "
        ++ pyJoin ", " ((signals.map (·.entity)).dedup.take 3) ++ " on " ++ topic
    else
      "Track " ++ ((signals.map (·.entity)).dedup.headI) ++ apos
        ++ "s progress on " ++ topic ++ " for competitive insights",
   if impact_areas.contains "Ops" then
      "Review operational implications and prepare client talking points"
    else if impact_areas.contains "Tech" then
      "Assess technology implications for product roadmap discussions"
    else if impact_areas.contains "Integrity" then
      "Prepare integrity/compliance messaging for affected clients"
    else if impact_areas.contains "Procurement" then
      "Identify procurement opportunities arising from this development"
    else "Prepare briefing materials for client conversations",
   "Consider proactive outreach to clients who may be impacted"].take 3

/-- Embeds `generate_so_what` (services.py lines 642-763): `svc` is the
OpenAI oracle (`none` = any exception), `convert_to_inline_citations`
abstracts the regex post-processing pass applied to successful responses
(irrelevant to the fallback path). -/
def generate_so_what (openai_api_key : Option String) (svc : Option String)
    (convert_to_inline_citations : String → String)
    (topic : String) (signals : List Signal) (impact_areas : List String) : String :=
  if openai_configured openai_api_key then
    match svc with
    | some content => convert_to_inline_citations content.trim
    | none => generate_so_what_template topic signals impact_areas
  else generate_so_what_template topic signals impact_areas

/-- Embeds `generate_now_what` (services.py lines 784-900): on a successful
response the stripped non-empty lines are kept (first three) when at least
two remain, otherwise the template fires; `none` = exception = template. -/
def generate_now_what (openai_api_key : Option String) (svc : Option String)
    (topic : String) (signals : List Signal) (impact_areas : List String) :
    List String :=
  if openai_configured openai_api_key then
    match svc with
    | some content =>
      if (((content.trim.splitOn "\n").map String.trim).filter
            (fun l => !(l == ""))).length ≥ 2 then
        (((content.trim.splitOn "\n").map String.trim).filter
            (fun l => !(l == ""))).take 3
      else generate_now_what_template topic signals impact_areas
    | none => generate_now_what_template topic signals impact_areas
  else generate_now_what_template topic signals impact_areas

theorem pyJoin_cons_data (sep : String) (x : String) (l : List String) :
    ∃ s : List Char, (pyJoin sep (x :: l)).data = x.data ++ s := by
  cases l with
  | nil => exact ⟨[], by simp [pyJoin]⟩
  | cons y ys =>
    exact ⟨sep.data ++ (pyJoin sep (y :: ys)).data,
      by simp [pyJoin, str_data_append, List.append_assoc]⟩

theorem pyJoin_not_mem (c : Char) (sep : String) (hsep : c ∉ sep.data) :
    ∀ l : List String, (∀ a ∈ l, c ∉ a.data) → c ∉ (pyJoin sep l).data := by
  intro l
  induction l with
  | nil => intro _; simp [pyJoin]
  | cons x xs ih =>
    intro h
    cases xs with
    | nil => simpa [pyJoin] using h x (List.mem_cons_self _ _)
    | cons y ys =>
      have hx := h x (List.mem_cons_self _ _)
      have htail := ih (fun a ha => h a (List.mem_cons_of_mem _ ha))
      intro hc
      simp only [pyJoin, str_data_append, List.mem_append] at hc
      rcases hc with (hc | hc) | hc
      · exact hx hc
      · exact hsep hc
      · exact htail hc

theorem digitChar_ne_bracket (m : Nat) : Nat.digitChar m ≠ '[' := by
  unfold Nat.digitChar
  rcases m with _|_|_|_|_|_|_|_|_|_|_|_|_|_|_|_|n <;> simp

theorem toDigitsCore_mem (b : Nat) : ∀ (fuel n : Nat) (ds : List Char) (c : Char),
    c ∈ Nat.toDigitsCore b fuel n ds → c ∈ ds ∨ ∃ m, c = Nat.digitChar m := by
  intro fuel
  induction fuel with
  | zero =>
    intro n ds c h
    rw [Nat.toDigitsCore] at h
    exact Or.inl h
  | succ f ih =>
    intro n ds c h
    rw [Nat.toDigitsCore] at h
    split at h
    · rcases List.mem_cons.mp h with hc | hc
      · exact Or.inr ⟨_, hc⟩
      · exact Or.inl hc
    · rcases ih _ _ c h with hc | hc
      · rcases List.mem_cons.mp hc with hc' | hc'
        · exact Or.inr ⟨_, hc'⟩
        · exact Or.inl hc'
      · exact Or.inr hc

theorem toString_nat_no_bracket (n : Nat) : ('[' : Char) ∉ (toString n).data := by
  intro hmem
  have hdata : (toString n).data = Nat.toDigits 10 n := rfl
  rw [hdata, Nat.toDigits] at hmem
  rcases toDigitsCore_mem 10 (n + 1) n [] '[' hmem with hc | ⟨m, hm⟩
  · simp at hc
  · exact digitChar_ne_bracket m hm.symm

/-- C8 counterexample: with the generative service unavailable and a theme
of two distinct entities, the template `so_what` text names only the entity
count, so it contains none of the theme's entity names. -/
theorem C8_counterexample :
    openai_configured none = false
    ∧ ([mkSignal "Elsevier" "High", mkSignal "Wiley" "High"] : List Signal) ≠ []
    ∧ (∀ e ∈ ([mkSignal "Elsevier" "High", mkSignal "Wiley" "High"] : List Signal).map
          (·.entity),
        strContains
          (generate_so_what none none id "open access"
            [mkSignal "Elsevier" "High", mkSignal "Wiley" "High"] ["Tech"]) e = false) := by
  refine ⟨rfl, by simp, ?_⟩
  decide

/-- C8 (amended): with the generative service unavailable, `so_what` and
`now_what` both come from the deterministic templates; `now_what` contains
the literal topic string and at least one entity name; `so_what` contains
the literal topic string, and also an entity name whenever the theme's
signals carry a single distinct entity (with several distinct entities it
names the entity count instead); and neither output introduces a bracket
citation when the inputs are bracket-free. -/
theorem C8_template_fallback
    (openai_api_key : Option String) (soSvc nowSvc : Option String)
    (convert_to_inline_citations : String → String)
    (topic : String) (signals : List Signal) (impact_areas : List String)
    (hcfg : openai_configured openai_api_key = false)
    (hne : signals ≠ []) :
    generate_so_what openai_api_key soSvc convert_to_inline_citations topic signals
        impact_areas
      = generate_so_what_template topic signals impact_areas
    ∧ generate_now_what openai_api_key nowSvc topic signals impact_areas
        = generate_now_what_template topic signals impact_areas
    ∧ strContains (generate_so_what_template topic signals impact_areas) topic = true
    ∧ (∃ a ∈ generate_now_what_template topic signals impact_areas,
        strContains a topic = true
          ∧ ∃ e ∈ signals.map (·.entity), strContains a e = true)
    ∧ ((signals.map (·.entity)).dedup.length = 1 →
        ∃ e ∈ signals.map (·.entity),
          strContains (generate_so_what_template topic signals impact_areas) e = true)
    ∧ (('[' : Char) ∉ topic.data → (∀ s ∈ signals, ('[' : Char) ∉ s.entity.data) →
        (∀ a ∈ impact_areas, ('[' : Char) ∉ a.data) →
        ('[' : Char) ∉ (generate_so_what_template topic signals impact_areas).data
          ∧ ∀ act ∈ generate_now_what_template topic signals impact_areas,
              ('[' : Char) ∉ act.data) := by
  have hED : (signals.map (·.entity)).dedup ≠ [] := by
    rw [ne_eq, List.dedup_eq_nil]
    simpa using hne
  obtain ⟨e0, rest, hE⟩ : ∃ e0 rest, (signals.map (·.entity)).dedup = e0 :: rest := by
    cases hE : (signals.map (·.entity)).dedup with
    | nil => exact absurd hE hED
    | cons a as => exact ⟨a, as, rfl⟩
  have he0 : e0 ∈ signals.map (·.entity) :=
    List.mem_dedup.mp (hE ▸ List.mem_cons_self e0 rest)
  refine ⟨by simp [generate_so_what, hcfg], by simp [generate_now_what, hcfg],
    ?_, ?_, ?_, ?_⟩
  · -- so_what contains the topic
    unfold generate_so_what_template
    by_cases hgt : (signals.map (·.entity)).dedup.length > 1
    · rw [if_pos hgt]
      exact strContains_of_parts _ _
        (("Multiple players ("
          ++ toString (signals.map (·.entity)).dedup.length
          ++ " entities) are moving on ").data)
        ((", indicating a broader market shift. This impacts "
          ++ (if impact_areas.isEmpty then "multiple areas" else pyJoin ", " impact_areas)
          ++ " for STM suppliers.").data)
        (by simp [str_data_append, List.append_assoc])
    · rw [if_neg hgt]
      exact strContains_of_parts _ _
        (((match signals with | [] => "Industry" | s :: _ => s.entity)
          ++ " is making moves on ").data)
        ((". This development affects "
          ++ (if impact_areas.isEmpty then "multiple areas" else pyJoin ", " impact_areas)
          ++ " and may signal competitive positioning.").data)
        (by simp [str_data_append, List.append_assoc])
  · -- now_what contains the topic and an entity name
    unfold generate_now_what_template
    simp only [List.take_succ_cons, List.take_nil]
    by_cases hgt : (signals.map (·.entity)).dedup.length > 1
    · rw [if_pos hgt, hE, List.take_succ_cons]
      obtain ⟨tl, htl⟩ := pyJoin_cons_data ", " e0 (rest.take 2)
      refine ⟨_, List.mem_cons_self _ _, ?_, e0, he0, ?_⟩
      · exact strContains_of_parts _ _
          (("Monitor developments from " ++ pyJoin ", " (e0 :: rest.take 2)
            ++ " on ").data)
          []
          (by simp [str_data_append, List.append_assoc])
      · exact strContains_of_parts _ _
          ("Monitor developments from ".data)
          (tl ++ (" on " ++ topic).data)
          (by simp [str_data_append, htl, List.append_assoc])
    · rw [if_neg hgt, hE]
      refine ⟨_, List.mem_cons_self _ _, ?_, e0, he0, ?_⟩
      · exact strContains_of_parts _ _
          (("Track " ++ (e0 :: rest).headI ++ apos ++ "s progress on ").data)
          (" for competitive insights".data)
          (by simp [str_data_append, List.append_assoc])
      · exact strContains_of_parts _ _
          ("Track ".data)
          ((apos ++ "s progress on " ++ topic ++ " for competitive insights").data)
          (by simp [str_data_append, List.append_assoc, List.headI])
  · -- single distinct entity: so_what names it
    intro hone
    unfold generate_so_what_template
    rw [if_neg (by omega)]
    cases signals with
    | nil => exact absurd rfl hne
    | cons s0 ss =>
      refine ⟨s0.entity, by simp, ?_⟩
      exact strContains_of_parts _ _ []
        ((" is making moves on " ++ topic ++ ". This development affects "
          ++ (if impact_areas.isEmpty then "multiple areas" else pyJoin ", " impact_areas)
          ++ " and may signal competitive positioning.").data)
        (by simp [str_data_append, List.append_assoc])
  · -- bracket-freeness
    intro ht hsig himp
    have himpact : ('[' : Char)
        ∉ (if impact_areas.isEmpty then "multiple areas"
           else pyJoin ", " impact_areas).data := by
      by_cases hie : impact_areas.isEmpty
      · rw [if_pos hie]; decide
      · rw [if_neg hie]; exact pyJoin_not_mem '[' ", " (by decide) impact_areas himp
    constructor
    · unfold generate_so_what_template
      by_cases hgt : (signals.map (·.entity)).dedup.length > 1
      · rw [if_pos hgt]
        intro hmem
        simp only [str_data_append, List.mem_append] at hmem
        rcases hmem with (((((h | h) | h) | h) | h) | h) | h
        · revert h; decide
        · exact toString_nat_no_bracket _ h
        · revert h; decide
        · exact ht h
        · revert h; decide
        · exact himpact h
        · revert h; decide
      · rw [if_neg hgt]
        cases signals with
        | nil => exact absurd rfl hne
        | cons s0 ss =>
          intro hmem
          simp only [str_data_append, List.mem_append] at hmem
          rcases hmem with ((((h | h) | h) | h) | h) | h
          · exact hsig s0 (List.mem_cons_self _ _) h
          · revert h; decide
          · exact ht h
          · revert h; decide
          · exact himpact h
          · revert h; decide
    · unfold generate_now_what_template
      intro act hact
      simp only [List.take_succ_cons, List.take_nil] at hact
      rcases List.mem_cons.mp hact with rfl | hact
      · by_cases hgt : (signals.map (·.entity)).dedup.length > 1
        · rw [if_pos hgt]
          intro hmem
          simp only [str_data_append, List.mem_append] at hmem
          rcases hmem with ((h | h) | h) | h
          · revert h; decide
          · refine pyJoin_not_mem '[' ", " (by decide) _ ?_ h
            intro a ha
            rcases List.mem_map.mp (List.mem_dedup.mp (List.take_subset _ _ ha)) with
              ⟨s, hs, rfl⟩
            exact hsig s hs
          · revert h; decide
          · exact ht h
        · rw [if_neg hgt, hE]
          intro hmem
          simp only [str_data_append, List.mem_append] at hmem
          rcases hmem with ((((h | h) | h) | h) | h) | h
          · revert h; decide
          · have : ('[' : Char) ∉ e0.data := by
              rcases List.mem_map.mp he0 with ⟨s, hs, rfl⟩
              exact hsig s hs
            exact this (by simpa [List.headI] using h)
          · revert h; decide
          · revert h; decide
          · exact ht h
          · revert h; decide
      rcases List.mem_cons.mp hact with rfl | hact
      · intro hmem
        revert hmem
        split_ifs <;> decide
      rcases List.mem_cons.mp hact with rfl | hact
      · decide
      · exact absurd hact (List.not_mem_nil _)

theorem C8_witness :
    openai_configured none = false
    ∧ ([mkSignal "Elsevier" "High"] : List Signal) ≠ []
    ∧ generate_so_what none none id "open access" [mkSignal "Elsevier" "High"] ["Tech"]
        = generate_so_what_template "open access" [mkSignal "Elsevier" "High"] ["Tech"]
    ∧ strContains
        (generate_so_what_template "open access" [mkSignal "Elsevier" "High"] ["Tech"])
        "open access" = true :=
  ⟨rfl, by simp,
   (C8_template_fallback none none none id "open access" [mkSignal "Elsevier" "High"]
      ["Tech"] rfl (by simp)).1,
   (C8_template_fallback none none none id "open access" [mkSignal "Elsevier" "High"]
      ["Tech"] rfl (by simp)).2.2.1⟩

/-! ### Signal collection dedup (`collect_signals_job`, jobs.py lines 216-238) -/

/-- A raw signal dictionary produced by a collector. -/
structure CollectedSignal where
  entity : String
  event_type : String
  topic : String
  source_url : String
  evidence_snippet : String
  confidence : String
  impact_areas : List String
  deriving DecidableEq, Repr

/-- The `Signal` row inserted by `create_signal_from_dict` (services.py
lines 20-110) for a collected dict: a fresh non-deleted row carrying the
dict's fields (`id`/`created_at` are database-generated; their values are
irrelevant to the dedup claim).  Its entity-linking and embedding side
effects touch other tables, not the signals table. -/
def signalOfCollected (d : CollectedSignal) : Signal :=
  ⟨0, d.entity, d.event_type, d.topic, d.source_url, d.evidence_snippet,
    d.confidence, d.impact_areas, [], [], 0, false⟩

/-- Embeds the persistence loop of `collect_signals_job`: for each collected
dict, query for a non-deleted signal with the same `source_url`; skip the
dict if one exists (leaving the table untouched), otherwise insert the new
row.  The loop sees its own earlier inserts (same session, autoflush). -/
def persist_collected : List Signal → List CollectedSignal → List Signal
  | db, [] => db
  | db, d :: ds =>
    match db.find? (fun s => s.source_url == d.source_url && !s.deleted) with
    | some _ => persist_collected db ds
    | none => persist_collected (db ++ [signalOfCollected d]) ds

theorem find?_append_of_none {α : Type} (p : α → Bool) {l1 : List α}
    (h : l1.find? p = none) (l2 : List α) :
    (l1 ++ l2).find? p = l2.find? p := by
  induction l1 with
  | nil => rfl
  | cons a l ih =>
    by_cases hpa : p a = true
    · rw [List.find?_cons_of_pos _ hpa] at h
      exact absurd h (by simp)
    · rw [List.find?_cons_of_neg _ hpa] at h
      rw [List.cons_append, List.find?_cons_of_neg _ hpa]
      exact ih h

/-- C9: a collection run only appends rows; every appended row is
non-deleted, its `source_url` collides neither with a pre-existing
non-deleted signal nor with another row appended by the same run (so at
most one non-deleted signal per `source_url` is persisted by the run); and
a collected dict whose `source_url` matches an existing non-deleted signal
is skipped, with the database returned unchanged. -/
theorem C9_collection_dedup (db : List Signal) (items : List CollectedSignal) :
    (∃ news : List Signal,
      persist_collected db items = db ++ news
      ∧ (∀ r ∈ news, r.deleted = false)
      ∧ news.Pairwise (fun a b => a.source_url ≠ b.source_url)
      ∧ (∀ r ∈ news, ∀ s ∈ db, s.deleted = false → s.source_url ≠ r.source_url))
    ∧ (∀ (d : CollectedSignal) (ds : List CollectedSignal),
        (∃ s ∈ db, s.deleted = false ∧ s.source_url = d.source_url) →
        persist_collected db (d :: ds) = persist_collected db ds) := by
  constructor
  · induction items generalizing db with
    | nil => exact ⟨[], by simp [persist_collected], by simp, List.Pairwise.nil, by simp⟩
    | cons d ds ih =>
      cases hf : db.find? (fun s => s.source_url == d.source_url && !s.deleted) with
      | some s =>
        simp only [persist_collected, hf]
        exact ih db
      | none =>
        simp only [persist_collected, hf]
        obtain ⟨news2, heq, hdel, hpw, hdisj⟩ := ih (db ++ [signalOfCollected d])
        have hnewmem : signalOfCollected d ∈ db ++ [signalOfCollected d] := by simp
        refine ⟨signalOfCollected d :: news2, ?_, ?_, ?_, ?_⟩
        · rw [heq]; simp
        · intro r hr
          rcases List.mem_cons.mp hr with rfl | hr
          · rfl
          · exact hdel r hr
        · refine List.Pairwise.cons ?_ hpw
          intro b hb
          exact hdisj b hb (signalOfCollected d) hnewmem rfl
        · intro r hr s hs hsdel
          rcases List.mem_cons.mp hr with rfl | hr
          · have := List.find?_eq_none.mp hf s hs
            simp only [Bool.and_eq_true, Bool.not_eq_true', beq_iff_eq,
              not_and] at this
            intro hurl
            exact absurd hsdel (by
              intro hdel'
              exact (this (by simpa [signalOfCollected] using hurl)) hdel')
          · exact hdisj r hr s (List.mem_append_left _ hs) hsdel
  · intro d ds hdup
    rcases hdup with ⟨s, hs, hdel, hurl⟩
    have : db.find? (fun s => s.source_url == d.source_url && !s.deleted) ≠ none := by
      intro hnone
      have := List.find?_eq_none.mp hnone s hs
      simp only [Bool.and_eq_true, Bool.not_eq_true', beq_iff_eq, not_and] at this
      exact this hurl hdel
    cases hf : db.find? (fun s => s.source_url == d.source_url && !s.deleted) with
    | none => exact absurd hf this
    | some s' => simp only [persist_collected, hf]

theorem C9_witness :
    persist_collected [signalOfCollected ⟨"Elsevier", "announcement", "open access",
        "https://x.example/a", "ev", "High", ["Tech"]⟩]
      [⟨"Elsevier", "announcement", "open access", "https://x.example/a", "ev",
        "High", ["Tech"]⟩]
      = [signalOfCollected ⟨"Elsevier", "announcement", "open access",
        "https://x.example/a", "ev", "High", ["Tech"]⟩] :=
  ((C9_collection_dedup
      [signalOfCollected ⟨"Elsevier", "announcement", "open access",
        "https://x.example/a", "ev", "High", ["Tech"]⟩] []).2
    ⟨"Elsevier", "announcement", "open access", "https://x.example/a", "ev",
      "High", ["Tech"]⟩ []
    ⟨signalOfCollected ⟨"Elsevier", "announcement", "open access",
        "https://x.example/a", "ev", "High", ["Tech"]⟩,
      by simp, rfl, rfl⟩).trans rfl

/-! ### Weekly brief generation (`generate_weekly_brief`, services.py
lines 1036-1184) -/

/-- Persisted `Theme` row (fields written by `save_themes`). -/
structure ThemeRow where
  id : Nat
  title : String
  signal_ids : List Nat
  key_players : List String
  aggregate_confidence : String
  impact_areas : List String
  so_what : String
  now_what : List String
  deriving DecidableEq, Repr

/-- Persisted `WeeklyBrief` row. -/
structure BriefRow where
  id : Nat
  week_start : Int
  week_end : Int
  theme_ids : List Nat
  total_signals : Nat
  coverage_areas : List String
  deriving DecidableEq, Repr

/-- The database state touched by brief generation: the three tables plus a
primary-key allocator standing in for UUID generation. -/
structure DB where
  signals : List Signal
  themes : List ThemeRow
  briefs : List BriefRow
  next_id : Nat
  deriving DecidableEq, Repr

/-- Environment of external-service oracles for narrative generation (one
response per theme per field; `none` = exception). -/
structure GenEnv where
  openai_api_key : Option String
  so_what_svc : String → List Signal → List String → Option String
  now_what_svc : String → List Signal → List String → Option String
  convert_citations_fn : String → String

/-- Python's `str.strip()` (whitespace at both ends), kernel-reducible. -/
def pyStrip (s : String) : String :=
  ⟨((s.data.dropWhile Char.isWhitespace).reverse.dropWhile Char.isWhitespace).reverse⟩

/-- Embeds `get_week_boundaries`: the rolling 7-day window ending on the
reference date (dates as day numbers). -/
def get_week_boundaries (reference_date : Int) : Int × Int :=
  (reference_date - 6, reference_date)

/-- Embeds `get_existing_brief_for_week`: `.first()` over the
`(week_start, week_end)` filter. -/
def get_existing_brief_for_week (db : DB) (week_start week_end : Int) :
    Option BriefRow :=
  db.briefs.find? (fun b => b.week_start == week_start && b.week_end == week_end)

/-- Descending `created_at` order used by `get_signals_for_week`. -/
def createdGE (a b : Signal) : Prop := b.created_at ≤ a.created_at

instance : DecidableRel createdGE := fun a b => by unfold createdGE; infer_instance

/-- Embeds `get_signals_for_week` (services.py lines 322-339): non-deleted
signals of the 7-day window, newest first. -/
def get_signals_for_week (db : DB) (week_end : Int) : List Signal :=
  List.insertionSort createdGE
    (db.signals.filter (fun s =>
      !s.deleted && decide (week_end - 6 ≤ s.created_at)
        && decide (s.created_at ≤ week_end)))

/-- Embeds `cluster_signals_by_topic` (services.py lines 419-436): groups by
the lowercased, stripped topic, preserving dict insertion order. -/
def cluster_signals_by_topic (signals : List Signal) : List (String × List Signal) :=
  signals.foldl (fun clusters s =>
    if clusters.any (fun p => p.1 == pyStrip (pyLower s.topic)) then
      clusters.map (fun p =>
        if p.1 == pyStrip (pyLower s.topic) then (p.1, p.2 ++ [s]) else p)
    else clusters ++ [(pyStrip (pyLower s.topic), [s])]) []

/-- Embeds `create_theme_from_cluster` (services.py lines 932-972). -/
def create_theme_from_cluster (env : GenEnv) (topic : String)
    (signals : List Signal) : ThemeDict :=
  ⟨(if is_competitor_theme signals then "🔴 COMPETITOR: " else "")
      ++ pyTitle topic
      ++ (match collect_key_players signals with
          | p0 :: p1 :: _ :: _ =>
            ": " ++ p0 ++ ", " ++ p1 ++ " and "
              ++ toString ((collect_key_players signals).length - 2) ++ " others"
          | [p0, p1] => ": " ++ p0 ++ " and " ++ p1
          | [p0] => ": " ++ p0
          | [] => ""),
    signals.map (·.id),
    collect_key_players signals,
    aggregate_confidence signals,
    collect_impact_areas signals,
    generate_so_what env.openai_api_key
      (env.so_what_svc topic signals (collect_impact_areas signals))
      env.convert_citations_fn topic signals (collect_impact_areas signals),
    generate_now_what env.openai_api_key
      (env.now_what_svc topic signals (collect_impact_areas signals))
      topic signals (collect_impact_areas signals),
    is_competitor_theme signals,
    get_competitor_entities_from_signals signals⟩

/-- Embeds `synthesize_weekly_themes` (services.py lines 1004-1029). -/
def synthesize_weekly_themes (env : GenEnv) (signals : List Signal) :
    List ThemeDict :=
  if signals.isEmpty then []
  else rank_themes ((cluster_signals_by_topic signals).map
    (fun p => create_theme_from_cluster env p.1 p.2))

def themeRowOfDict (id : Nat) (t : ThemeDict) : ThemeRow :=
  ⟨id, t.title, t.signal_ids, t.key_players, t.aggregate_confidence,
    t.impact_areas, t.so_what, t.now_what⟩

/-- Embeds `save_themes` (services.py lines 1116-1145): inserts one `Theme`
row per dictionary, ids allocated in order. -/
def save_themes (db : DB) (theme_dicts : List ThemeDict) : List ThemeRow × DB :=
  (theme_dicts.enum.map (fun p => themeRowOfDict (db.next_id + p.1) p.2),
   ⟨db.signals,
    db.themes ++ theme_dicts.enum.map (fun p => themeRowOfDict (db.next_id + p.1) p.2),
    db.briefs, db.next_id + theme_dicts.length⟩)

/-- Embeds `create_weekly_brief` (services.py lines 1076-1113). -/
def create_weekly_brief (db : DB) (week_start week_end : Int)
    (themes : List ThemeRow) (total_signals : Nat) : BriefRow × DB :=
  (⟨db.next_id, week_start, week_end, themes.map (·.id), total_signals,
     sortedUnique (themes.flatMap (·.impact_areas))⟩,
   ⟨db.signals, db.themes,
    db.briefs ++ [⟨db.next_id, week_start, week_end, themes.map (·.id),
      total_signals, sortedUnique (themes.flatMap (·.impact_areas))⟩],
    db.next_id + 1⟩)

/-- Embeds `generate_weekly_brief` (services.py lines 1148-1184): checks for
an existing brief of the week before any write; returns the brief (new or
existing, `none` when the week holds no signals) together with the updated
database state. -/
def generate_weekly_brief (env : GenEnv) (db : DB) (reference_date : Int) :
    Option BriefRow × DB :=
  match get_existing_brief_for_week db (get_week_boundaries reference_date).1
      (get_week_boundaries reference_date).2 with
  | some existing => (some existing, db)
  | none =>
    if (get_signals_for_week db (get_week_boundaries reference_date).2).isEmpty then
      (none, db)
    else
      (some (create_weekly_brief
          (save_themes db (synthesize_weekly_themes env
            (get_signals_for_week db (get_week_boundaries reference_date).2))).2
          (get_week_boundaries reference_date).1
          (get_week_boundaries reference_date).2
          (save_themes db (synthesize_weekly_themes env
            (get_signals_for_week db (get_week_boundaries reference_date).2))).1
          (get_signals_for_week db (get_week_boundaries reference_date).2).length).1,
       (create_weekly_brief
          (save_themes db (synthesize_weekly_themes env
            (get_signals_for_week db (get_week_boundaries reference_date).2))).2
          (get_week_boundaries reference_date).1
          (get_week_boundaries reference_date).2
          (save_themes db (synthesize_weekly_themes env
            (get_signals_for_week db (get_week_boundaries reference_date).2))).1
          (get_signals_for_week db (get_week_boundaries reference_date).2).length).2)

/-- C1: a second call of `generate_weekly_brief` with the same reference
date returns the same result (same brief) and the same database state (no
additional Theme or WeeklyBrief rows); and whenever a brief for the
`(week_start, week_end)` pair already exists, the call returns it with the
state untouched — the existence check precedes every mutation. -/
theorem C1_generate_weekly_brief_idempotent :
    (∀ (env : GenEnv) (db : DB) (reference_date : Int),
      generate_weekly_brief env (generate_weekly_brief env db reference_date).2
          reference_date
        = generate_weekly_brief env db reference_date)
    ∧ (∀ (env : GenEnv) (db : DB) (reference_date : Int) (b : BriefRow),
        get_existing_brief_for_week db (get_week_boundaries reference_date).1
            (get_week_boundaries reference_date).2 = some b →
        generate_weekly_brief env db reference_date = (some b, db)) := by
  have hmain : ∀ (env : GenEnv) (db : DB) (reference_date : Int),
      generate_weekly_brief env (generate_weekly_brief env db reference_date).2
          reference_date
        = generate_weekly_brief env db reference_date := by
    intro env db ref
    cases hb : get_existing_brief_for_week db (get_week_boundaries ref).1
        (get_week_boundaries ref).2 with
    | some b =>
      have hinner : generate_weekly_brief env db ref = (some b, db) := by
        rw [generate_weekly_brief, hb]
      rw [hinner]
      exact hinner
    | none =>
      by_cases hsig : (get_signals_for_week db (get_week_boundaries ref).2).isEmpty
      · have hinner : generate_weekly_brief env db ref = (none, db) := by
          rw [generate_weekly_brief, hb, if_pos hsig]
        rw [hinner]
        exact hinner
      · obtain ⟨B, D2, hinner, hBs, hBe, hD2briefs⟩ :
            ∃ (B : BriefRow) (D2 : DB),
              generate_weekly_brief env db ref = (some B, D2)
              ∧ B.week_start = (get_week_boundaries ref).1
              ∧ B.week_end = (get_week_boundaries ref).2
              ∧ D2.briefs = db.briefs ++ [B] :=
          ⟨_, _, by rw [generate_weekly_brief, hb, if_neg hsig], rfl, rfl, rfl⟩
        rw [hinner]
        have hfound : get_existing_brief_for_week D2 (get_week_boundaries ref).1
            (get_week_boundaries ref).2 = some B := by
          unfold get_existing_brief_for_week at hb ⊢
          rw [hD2briefs, find?_append_of_none _ hb]
          rw [List.find?_cons_of_pos]
          rw [hBs, hBe]
          simp
        show generate_weekly_brief env D2 ref = (some B, D2)
        rw [generate_weekly_brief, hfound]
  refine ⟨hmain, ?_⟩
  intro env db ref b hb
  rw [generate_weekly_brief, hb]

theorem C1_witness :
    get_existing_brief_for_week ⟨[], [], [⟨0, -6, 0, [], 0, []⟩], 1⟩
        (get_week_boundaries 0).1 (get_week_boundaries 0).2
      = some ⟨0, -6, 0, [], 0, []⟩
    ∧ generate_weekly_brief ⟨none, fun _ _ _ => none, fun _ _ _ => none, id⟩
        ⟨[], [], [⟨0, -6, 0, [], 0, []⟩], 1⟩ 0
      = (some ⟨0, -6, 0, [], 0, []⟩, ⟨[], [], [⟨0, -6, 0, [], 0, []⟩], 1⟩) :=
  ⟨by decide,
   C1_generate_weekly_brief_idempotent.2
     ⟨none, fun _ _ _ => none, fun _ _ _ => none, id⟩
     ⟨[], [], [⟨0, -6, 0, [], 0, []⟩], 1⟩ 0 ⟨0, -6, 0, [], 0, []⟩ (by decide)⟩

end MarketPulse
